import Mathlib

/-!
Shallow embedding of the tabular statistics / preprocessing toolkit
(`food_statistics.py` and `preprocessing.py`).

A cell value is a number (modelled as a rational, covering Python int and
float), a string token, or the explicit absence marker `None`.  A dataset is
an insertion-ordered mapping from column name to list of cells, modelled as an
association list; Python `dict` assignment updates the binding in place when
the key exists and appends otherwise, and `del` removes the binding.  Raised
Python exceptions are modelled with `Except PyErr`; a value that a function
returns normally (even an exception *object* returned rather than raised, as
`conditional_probability` does) sits on the `Except.ok` side.
-/

inductive Value where
  | num : ℚ → Value
  | str : String → Value
  | null : Value
deriving DecidableEq

inductive PyErr where
  | typeError
  | valueError
  | keyError
deriving DecidableEq

abbrev Dataset := List (String × List Value)

def Value.isNum : Value → Bool
  | .num _ => true
  | _ => false

def Value.isStr : Value → Bool
  | .str _ => true
  | _ => false

/-- Numeric content of a cell; only applied to cells already known numeric. -/
def numOf : Value → ℚ
  | .num q => q
  | _ => 0

/-- `dataset[column]` as an insertion-ordered mapping: first matching key. -/
def lookupCol : Dataset → String → Option (List Value)
  | [], _ => none
  | e :: es, k => if e.1 = k then some e.2 else lookupCol es k

/-- Python `dict` assignment: replace the existing binding in place, else
append a new binding at the end. -/
def dictSet : Dataset → String → List Value → Dataset
  | [], k, v => [(k, v)]
  | e :: es, k, v => if e.1 = k then (k, v) :: es else e :: dictSet es k v

/-- Python `del dataset[column]`: remove the (unique) binding for the key. -/
def dictDel : Dataset → String → Dataset
  | [], _ => []
  | e :: es, k => if e.1 = k then es else e :: dictDel es k

/-! ## Statistics (`food_statistics.py`)

Every column-accepting method starts with `self._validate_column(column)`
(lines 64-66), which raises `KeyError` when the name is absent; the embeddings
below realise that as the `none` branch of a match on `lookupCol`. -/

/-- `Statistics.mean` (lines 37-62): null-filter, reject the empty view, then
`sum(valores_validos) / len(valores_validos)`.  Python `sum` over non-numeric
cells raises `TypeError`, hence the `all isNum` guard. -/
def mean (ds : Dataset) (column : String) : Except PyErr ℚ :=
  match lookupCol ds column with
  | none => .error .keyError
  | some vals =>
    let valid := vals.filter (· != Value.null)
    if valid = [] then .error .valueError
    else if valid.all Value.isNum then .ok ((valid.map numOf).sum / (valid.length : ℚ))
    else .error .typeError

/-- One step of the frequency-table loop in `absolute_frequency`
(lines 289-294): bump the existing entry or append a new one, preserving
insertion order as a Python dict does. -/
def bump (acc : List (Value × ℕ)) (v : Value) : List (Value × ℕ) :=
  if acc.any (fun e => e.1 == v) then
    acc.map (fun e => if e.1 == v then (e.1, e.2 + 1) else e)
  else acc ++ [(v, 1)]

def absFreqList (vals : List Value) : List (Value × ℕ) :=
  vals.foldl bump []

/-- `Statistics.absolute_frequency` (lines 267-296): counts over the full,
unfiltered column (nulls included), insertion-ordered; empty column (zero
rows) raises `ValueError`. -/
def absolute_frequency (ds : Dataset) (column : String) : Except PyErr (List (Value × ℕ)) :=
  match lookupCol ds column with
  | none => .error .keyError
  | some vals =>
    if vals = [] then .error .valueError
    else .ok (absFreqList vals)

/-- `Statistics.relative_frequency` (lines 299-325).  The loop guard is
`if valor not in frequencia_relativa`, which tests the *count* `valor`
against the keys of the result dict (a key equals the integer count exactly
when it is that number as a cell), instead of testing the key `chave`; an
entry is appended only when no already-inserted key equals the count. -/
def relative_frequency (ds : Dataset) (column : String) : Except PyErr (List (Value × ℚ)) :=
  match absolute_frequency ds column with
  | .error e => .error e
  | .ok fa =>
    let n : ℚ := ((lookupCol ds column).getD []).length
    .ok (fa.foldl (fun acc e =>
      if acc.any (fun r => r.1 == Value.num (e.2 : ℚ)) then acc
      else acc ++ [(e.1, (e.2 : ℚ) / n)]) [])

/-- `Statistics.mode` (lines 106-138): null-filter only for the emptiness
check, then take the frequency table of the *unfiltered* column via
`absolute_frequency` and keep the entries tied at the maximum count, in
table (insertion) order. -/
def mode (ds : Dataset) (column : String) : Except PyErr (List Value) :=
  match lookupCol ds column with
  | none => .error .keyError
  | some vals =>
    let filtered := vals.filter (· != Value.null)
    if filtered = [] then .error .valueError
    else
      match absolute_frequency ds column with
      | .error e => .error e
      | .ok fr =>
        let maxCount := fr.foldl (fun m e => max m e.2) 0
        .ok ((fr.filter (fun e => e.2 == maxCount)).map (·.1))

/-! ## Sorting of cell values

`cumulative_frequency`, `label_encode` and `oneHot_encode` call Python
`sorted`.  Python compares numbers with numbers and strings with strings and
raises `TypeError` on any other comparison (also between two `None`), except
that a list of length at most one is returned without any comparison. -/

def valLe : Value → Value → Bool
  | .num a, .num b => a ≤ b
  | .str a, .str b => !(b < a)
  | _, _ => true

def insertSorted (v : Value) : List Value → List Value
  | [] => [v]
  | w :: ws => if valLe v w then v :: w :: ws else w :: insertSorted v ws

def sortVals (vs : List Value) : List Value := vs.foldr insertSorted []

def sortValuesE (vs : List Value) : Except PyErr (List Value) :=
  if vs.length ≤ 1 then .ok vs
  else if vs.all Value.isNum || vs.all Value.isStr then .ok (sortVals vs)
  else .error .typeError

/-- `frequencia[chave]` on a frequency table; the key is always present. -/
def freqLookup (fr : List (Value × ℚ)) (k : Value) : ℚ :=
  ((fr.find? (fun e => e.1 == k)).map (·.2)).getD 0

/-- `Statistics.cumulative_frequency` (lines 327-367): validate the column,
reject a `frequency_method` outside absolute/relative with `ValueError`,
build the chosen frequency table, sort its keys ascending, and emit the
running sums in sorted key order. -/
def cumulative_frequency (ds : Dataset) (column : String) (frequency_method : String) :
    Except PyErr (List (Value × ℚ)) :=
  match lookupCol ds column with
  | none => .error .keyError
  | some _ =>
    if frequency_method != "absolute" && frequency_method != "relative" then .error .valueError
    else
      match
        (if frequency_method == "absolute" then
          match absolute_frequency ds column with
          | .error e => .error e
          | .ok fa => .ok (fa.map (fun e => (e.1, (e.2 : ℚ))))
        else relative_frequency ds column : Except PyErr (List (Value × ℚ))) with
      | .error e => .error e
      | .ok fr =>
        match sortValuesE (fr.map (·.1)) with
        | .error e => .error e
        | .ok keys =>
          .ok (keys.foldl (fun st k =>
            (st.1 + freqLookup fr k, st.2 ++ [(k, st.1 + freqLookup fr k)])) ((0 : ℚ), [])).2

/-- An exception object that `conditional_probability` *returns* as an
ordinary value rather than raising (`return KeyError(...)`, lines 401 and
410); on the `Except.ok` side it is indistinguishable from a successful,
truthy result for the caller. -/
inductive CPResult where
  | val : ℚ → CPResult
  | errObj : PyErr → CPResult
deriving DecidableEq

/-- `Statistics.conditional_probability` (lines 369-412): scan adjacent index
pairs `(i, i+1)` for `i` in `[0, N-2]`, count predecessors equal to `value2`
(`evento_b`) and among them successors equal to `value1` (`evento_a_b`).
When `N < 2` or `evento_b = 0` the source executes `return KeyError(...)` —
the exception object becomes the return value and nothing is raised. -/
def conditional_probability (ds : Dataset) (column : String) (value1 value2 : Value) :
    Except PyErr CPResult :=
  match lookupCol ds column with
  | none => .error .keyError
  | some vals =>
    let n := vals.length
    if n < 2 then .ok (.errObj .keyError)
    else
      let idx := List.range (n - 1)
      let eventoB := (idx.filter (fun i => vals.getD i Value.null == value2)).length
      let eventoAB := (idx.filter (fun i =>
        vals.getD i Value.null == value2 && vals.getD (i + 1) Value.null == value1)).length
      if eventoB = 0 then .ok (.errObj .keyError)
      else .ok (.val ((eventoAB : ℚ) / (eventoB : ℚ)))

/-- The remainder of `Statistics.covariance` (lines 224-243), translated for
completeness: it is unreachable in the source, because the arity error in the
method's first statement fires before it (see `covariance`).  The deviation
sum runs over the zipped *unfiltered* columns, so a null or string cell in
either column makes the subtraction raise `TypeError`; the null-filtered
pairs are used only for the emptiness check. -/
def covariance_body (ds : Dataset) (column_a column_b : String) : Except PyErr ℚ :=
  match lookupCol ds column_a, lookupCol ds column_b with
  | some va, some vb =>
    if va = [] ∨ vb = [] then .error .valueError
    else
      let pairs := (va.zip vb).filter (fun p => p.1 != Value.null && p.2 != Value.null)
      if pairs = [] then .error .valueError
      else
        match mean ds column_a, mean ds column_b with
        | .ok ma, .ok mb =>
          if (va.zip vb).all (fun p => p.1.isNum && p.2.isNum) then
            .ok (((va.zip vb).map (fun p => (numOf p.1 - ma) * (numOf p.2 - mb))).sum
              / (va.length : ℚ))
          else .error .typeError
        | .error e, _ => .error e
        | _, .error e => .error e
  | _, _ => .error .keyError

/-- `Statistics.covariance` (lines 203-243).  Its first statement,
`self._validate_column(column_a, column_b)`, passes two positional arguments
to `_validate_column`, which is declared with a single `column` parameter
(line 64); Python therefore raises
`TypeError: _validate_column() takes 2 positional arguments but 3 were given`
on every call, before any other statement of the body runs. -/
def covariance (ds : Dataset) (column_a column_b : String) : Except PyErr ℚ :=
  match (Except.error PyErr.typeError : Except PyErr Unit) with
  | .error e => .error e
  | .ok _ => covariance_body ds column_a column_b

/-! ## Construction (`Statistics.__init__`, lines 11-35)

The caller-supplied mapping is dynamically typed: a value bound to a column
name may fail to be a list.  `PyVal` models that raw cell-container. The
source checks, in order: every value is a list (else `TypeError`), the
mapping is non-empty (else `ValueError`), and the set of column lengths has
exactly one element (else `ValueError`).  No check rejects empty columns: a
mapping whose columns all have length 0 passes the length test. -/

inductive PyVal where
  | list : List Value → PyVal
  | scalar : Value → PyVal
deriving DecidableEq

def PyVal.isList : PyVal → Bool
  | .list _ => true
  | .scalar _ => false

def PyVal.len : PyVal → ℕ
  | .list l => l.length
  | .scalar _ => 0

def PyVal.toList : PyVal → List Value
  | .list l => l
  | .scalar _ => []

def statisticsInit (ds : List (String × PyVal)) : Except PyErr Dataset :=
  if ds.all (fun kv => kv.2.isList) = false then .error .typeError
  else if ds = [] then .error .valueError
  else if (ds.map (fun kv => kv.2.len)).dedup.length ≠ 1 then .error .valueError
  else .ok (ds.map (fun kv => (kv.1, kv.2.toList)))

def initAccepts (ds : List (String × PyVal)) : Bool :=
  match statisticsInit ds with
  | .ok _ => true
  | .error _ => false

/-! ## Preprocessing (`preprocessing.py`) -/

/-- The numeric cells of a column, in order: `isinstance(v, (int, float))`. -/
def numsOf (vals : List Value) : List ℚ :=
  vals.filterMap (fun v => match v with | .num q => some q | _ => none)

/-- `min(valores_numericos)` over a non-empty numeric view (0 when the view
is empty, a case the scaler skips before ever taking the minimum). -/
def colMin (vals : List Value) : ℚ :=
  match numsOf vals with
  | [] => 0
  | x :: xs => xs.foldl min x

def colMax (vals : List Value) : ℚ :=
  match numsOf vals with
  | [] => 0
  | x :: xs => xs.foldl max x

/-- The loop body of `Scaler.minMax_scaler` (lines 122-156) for one column:
skip the column when it has no numeric cell; when the range is zero replace
every numeric cell by `0.0`; otherwise replace each numeric cell `x` by
`(x - min) / range`; non-numeric cells (nulls and strings) pass through. -/
def minMaxScaleColumn (vals : List Value) : List Value :=
  if numsOf vals = [] then vals
  else
    if colMax vals - colMin vals = 0 then
      vals.map (fun v => if v.isNum then Value.num 0 else v)
    else
      vals.map (fun v => match v with
        | .num x => Value.num ((x - colMin vals) / (colMax vals - colMin vals))
        | w => w)

/-- What `minMax_scaler` writes at a cell holding `v`, as a function of the
column; `minMaxScaleColumn` is proved to act cellwise as `minMaxCell`. -/
def minMaxCell (vals : List Value) (v : Value) : Value :=
  if numsOf vals = [] then v
  else if colMax vals - colMin vals = 0 then (if v.isNum then Value.num 0 else v)
  else
    match v with
    | .num x => Value.num ((x - colMin vals) / (colMax vals - colMin vals))
    | w => w

/-- The loop body of `Encoder.label_encode` (lines 205-229) for one requested
name: an absent name is skipped (`continue`) with the dataset untouched;
otherwise the distinct non-null values are sorted, numbered in sort order,
and each cell is replaced by its code, nulls passing through as null. -/
def label_encode_column (ds : Dataset) (column : String) : Except PyErr Dataset :=
  match lookupCol ds column with
  | none => .ok ds
  | some vals =>
    match sortValuesE ((vals.filter (· != Value.null)).dedup) with
    | .error e => .error e
    | .ok cats =>
      .ok (dictSet ds column (vals.map (fun v =>
        if v == Value.null then Value.null
        else Value.num ((cats.findIdx (fun c => c == v) : ℕ) : ℚ))))

/-- Python `f"{coluna}_{categoria}"` applied to a cell value.  For string
tokens this is the token itself, the case the one-hot theorem is stated for;
numeric formatting only approximates Python's float rendering. -/
def valueName : Value → String
  | .str s => s
  | .num q => toString q
  | .null => "None"

def oneHotName (column : String) (c : Value) : String :=
  column ++ "_" ++ valueName c

/-- `[1 if valor == categoria else 0 for valor in valores]` (line 248). -/
def indicatorColumn (vals : List Value) (c : Value) : List Value :=
  vals.map (fun v => if v == c then Value.num 1 else Value.num 0)

/-- The loop body of `Encoder.oneHot_encode` (lines 232-252) for one column:
`dataset[coluna]` raises `KeyError` when absent; otherwise one indicator
column per sorted distinct non-null value is assigned into the dataset and
the original column is deleted. -/
def oneHot_encode_column (ds : Dataset) (column : String) : Except PyErr Dataset :=
  match lookupCol ds column with
  | none => .error .keyError
  | some vals =>
    match sortValuesE ((vals.filter (· != Value.null)).dedup) with
    | .error e => .error e
    | .ok cats =>
      .ok (dictDel
        (cats.foldl (fun acc c => dictSet acc (oneHotName column c) (indicatorColumn vals c)) ds)
        column)

/-! Observation helpers used to state the one-hot claim: the numeric content
of the cell at row `i` of a named column, and the per-row sum of a list of
named columns. -/

def cellNum (ds : Dataset) (k : String) (i : ℕ) : ℚ :=
  match lookupCol ds k with
  | some col =>
    match col[i]? with
    | some v => numOf v
    | none => 0
  | none => 0

def rowSum (ds : Dataset) (names : List String) (i : ℕ) : ℚ :=
  (names.map (fun k => cellNum ds k i)).sum

def eOk : Except PyErr Dataset → Bool
  | .ok _ => true
  | .error _ => false

def resultLookup (r : Except PyErr Dataset) (k : String) : Option (List Value) :=
  match r with
  | .ok d => lookupCol d k
  | .error _ => none

def resultRowSum (r : Except PyErr Dataset) (names : List String) (i : ℕ) : ℚ :=
  match r with
  | .ok d => rowSum d names i
  | .error _ => 0

/-! ## Claims -/

/-- C1: on a one-element column (N < 2) and on a two-element column in which
`value2` never occurs as a predecessor (B-count 0), `conditional_probability`
does not signal an error: in both cases it returns normally, handing the
caller an un-raised `KeyError` object — a truthy non-error value — instead of
raising or producing an error result. -/
theorem conditional_probability_returns_error_object :
    conditional_probability [("c", [Value.num 1])] "c" (Value.num 0) (Value.num 0)
      = Except.ok (CPResult.errObj PyErr.keyError) ∧
    conditional_probability [("c", [Value.num 1, Value.num 2])] "c" (Value.num 0) (Value.num 5)
      = Except.ok (CPResult.errObj PyErr.keyError) := by
  exact ⟨rfl, rfl⟩

/-- C2: on the null-free column `[2, 1, 1]`, `relative_frequency` returns a
table with a single entry `2 ↦ 1/3`: the entry for the distinct value `1` is
missing, because the loop tests the count (2) instead of the key (1) against
the keys already inserted, and the count collides with the key `2`; the
returned proportions sum to `1/3`, not `1`. -/
theorem relative_frequency_drops_entry :
    relative_frequency [("c", [Value.num 2, Value.num 1, Value.num 1])] "c"
      = Except.ok [(Value.num 2, (1 : ℚ)/3)] ∧ ((1 : ℚ)/3 ≠ 1) := by
  refine ⟨rfl, by norm_num⟩

/-- C3: `covariance` raises `TypeError` on the dataset
`{"a": [1, 2], "b": [3, 4]}`, whose columns both exist and are fully
numeric, because its first statement calls the one-parameter
`_validate_column` with two arguments; the unreachable remainder of the body
would have returned `1/4` on this input, the value the claim describes. -/
theorem covariance_always_type_error :
    covariance [("a", [Value.num 1, Value.num 2]), ("b", [Value.num 3, Value.num 4])] "a" "b"
      = Except.error PyErr.typeError ∧
    covariance_body [("a", [Value.num 1, Value.num 2]), ("b", [Value.num 3, Value.num 4])] "a" "b"
      = Except.ok ((1 : ℚ)/4) := by
  refine ⟨rfl, ?_⟩
  simp +decide [covariance_body, lookupCol, mean, numOf]
  norm_num

/-- C4: on the column `[None, None, 1]`, which has a non-null value, `mode`
returns `[None]`: the frequency table is computed over the unfiltered column,
so the null marker (count 2) wins the maximum and is returned as the mode,
contradicting the null-filtered frequency the claim describes. -/
theorem mode_returns_null :
    mode [("c", [Value.null, Value.null, Value.num 1])] "c" = Except.ok [Value.null] := by
  rfl

/-- C5 counterexample: the constructor accepts the mapping `{"a": []}`, whose
only column is an empty sequence — construction does not fail although the
non-emptiness invariant is violated. -/
theorem statisticsInit_accepts_empty_columns :
    statisticsInit [("a", PyVal.list [])] = Except.ok [("a", ([] : List Value))] := by
  rfl

/-- C5 as amended: construction fails with an error exactly when some value
is not a sequence, the mapping is empty, or the column lengths differ
(equivalently, it succeeds exactly when every value is a list and the set of
column lengths has exactly one element); empty columns of equal length are
accepted, so an accepted dataset is rectangular but need not have non-empty
columns. -/
theorem statisticsInit_accepts_iff (ds : List (String × PyVal)) :
    initAccepts ds = true ↔
      (ds.all (fun kv => kv.2.isList) = true ∧
        (ds.map (fun kv => kv.2.len)).dedup.length = 1) := by
  by_cases h1 : ds.all (fun kv => kv.2.isList) = true
  · by_cases h3 : (ds.map (fun kv => kv.2.len)).dedup.length = 1
    · have h2 : ds ≠ [] := by
        intro he
        rw [he] at h3
        simp [List.dedup_nil] at h3
      simp [initAccepts, statisticsInit, h1, h2, h3]
    · by_cases h2 : ds = []
      · subst h2
        simp [initAccepts, statisticsInit]
      · simp [initAccepts, statisticsInit, h1, h2, h3]
  · have h1' : ds.all (fun kv => kv.2.isList) = false := by
      simpa using h1
    simp [initAccepts, statisticsInit, h1', h1]

/-- C6 counterexample: on the sequence `[B, A, B, A, B, C]`,
`conditional_probability` for consequent `A` given predecessor `B` does not
return `1.0`. -/
theorem conditional_probability_BABABC_ne_one :
    conditional_probability
        [("c", [Value.str "B", Value.str "A", Value.str "B",
                Value.str "A", Value.str "B", Value.str "C"])]
        "c" (Value.str "A") (Value.str "B")
      ≠ Except.ok (CPResult.val 1) := by
  intro h
  have h2 : (Except.ok (CPResult.val ((2 : ℚ)/3)) : Except PyErr CPResult)
      = Except.ok (CPResult.val 1) := h
  have h3 : (2 : ℚ)/3 = 1 := CPResult.val.inj (Except.ok.inj h2)
  norm_num at h3

/-- C6 as amended: on `[B, A, B, A, B, C]` the result is `2/3`: `B` occurs as
a predecessor three times (indices 0, 2 and 4) and is followed by `A` twice. -/
theorem conditional_probability_BABABC_value :
    conditional_probability
        [("c", [Value.str "B", Value.str "A", Value.str "B",
                Value.str "A", Value.str "B", Value.str "C"])]
        "c" (Value.str "A") (Value.str "B")
      = Except.ok (CPResult.val ((2 : ℚ)/3)) := by
  rfl

/-- C7: on the null-free, all-numeric column `[2, 1, 1]` in relative mode,
`cumulative_frequency` returns `{2 ↦ 1/3}`: its final (and only) running sum
is `1/3`, not `1.0`, because `relative_frequency` dropped the entry for the
value `1`. -/
theorem cumulative_frequency_relative_final :
    cumulative_frequency [("c", [Value.num 2, Value.num 1, Value.num 1])] "c" "relative"
      = Except.ok [(Value.num 2, (1 : ℚ)/3)] ∧ ((1 : ℚ)/3 ≠ 1) := by
  constructor
  · have h : cumulative_frequency [("c", [Value.num 2, Value.num 1, Value.num 1])] "c" "relative"
        = Except.ok [(Value.num 2, 0 + ((1 : ℕ) : ℚ) / ((3 : ℕ) : ℚ))] := rfl
    rw [h]
    norm_num
  · norm_num

/-! ## Bounds for the min-max scaler -/

lemma foldl_min_le_init (l : List ℚ) (a : ℚ) : l.foldl min a ≤ a := by
  induction l generalizing a with
  | nil => simp
  | cons b t ih =>
    simpa using le_trans (ih (min a b)) (min_le_left a b)

lemma foldl_min_le (l : List ℚ) (a : ℚ) : ∀ x ∈ l, l.foldl min a ≤ x := by
  induction l generalizing a with
  | nil => simp
  | cons b t ih =>
    intro x hx
    rcases List.mem_cons.mp hx with rfl | hx
    · simpa using le_trans (foldl_min_le_init t (min a x)) (min_le_right a x)
    · simpa using ih (min a b) x hx

lemma init_le_foldl_max (l : List ℚ) (a : ℚ) : a ≤ l.foldl max a := by
  induction l generalizing a with
  | nil => simp
  | cons b t ih =>
    simpa using le_trans (le_max_left a b) (ih (max a b))

lemma le_foldl_max (l : List ℚ) (a : ℚ) : ∀ x ∈ l, x ≤ l.foldl max a := by
  induction l generalizing a with
  | nil => simp
  | cons b t ih =>
    intro x hx
    rcases List.mem_cons.mp hx with rfl | hx
    · simpa using le_trans (le_max_right a x) (init_le_foldl_max t (max a x))
    · simpa using ih (max a b) x hx

lemma colMin_le_of_mem {vals : List Value} {x : ℚ} (hx : x ∈ numsOf vals) :
    colMin vals ≤ x := by
  unfold colMin
  cases h : numsOf vals with
  | nil => rw [h] at hx; cases hx
  | cons y ys =>
    rw [h] at hx
    rcases List.mem_cons.mp hx with rfl | hx
    · exact foldl_min_le_init ys x
    · exact foldl_min_le ys y x hx

lemma le_colMax_of_mem {vals : List Value} {x : ℚ} (hx : x ∈ numsOf vals) :
    x ≤ colMax vals := by
  unfold colMax
  cases h : numsOf vals with
  | nil => rw [h] at hx; cases hx
  | cons y ys =>
    rw [h] at hx
    rcases List.mem_cons.mp hx with rfl | hx
    · exact init_le_foldl_max ys x
    · exact le_foldl_max ys y x hx

lemma num_mem_numsOf {vals : List Value} {i : ℕ} {x : ℚ}
    (h : vals[i]? = some (Value.num x)) : x ∈ numsOf vals := by
  have hv : Value.num x ∈ vals := by
    have := List.getElem?_eq_some.mp h
    rcases this with ⟨hlt, hget⟩
    exact hget ▸ List.getElem_mem hlt
  exact List.mem_filterMap.mpr ⟨Value.num x, hv, rfl⟩

/-- C8: in a column with at least one numeric cell, `minMax_scaler` rewrites
the cell at any row `i` to `minMaxCell`: a non-numeric cell (null or string)
passes through unchanged; when the numeric range is zero every numeric cell
becomes `0.0`; and when the range is non-zero a numeric cell `x` becomes
`(x - min) / (max - min)`, which lies in `[0, 1]`. -/
theorem minMax_scaler_cells (vals : List Value) (i : ℕ) (v : Value)
    (hne : numsOf vals ≠ []) (hv : vals[i]? = some v) :
    (minMaxScaleColumn vals)[i]? = some (minMaxCell vals v) ∧
    (v.isNum = false → minMaxCell vals v = v) ∧
    (colMax vals - colMin vals = 0 → v.isNum = true → minMaxCell vals v = Value.num 0) ∧
    (colMax vals - colMin vals ≠ 0 → v.isNum = true →
      minMaxCell vals v
          = Value.num ((numOf v - colMin vals) / (colMax vals - colMin vals)) ∧
      0 ≤ (numOf v - colMin vals) / (colMax vals - colMin vals) ∧
      (numOf v - colMin vals) / (colMax vals - colMin vals) ≤ 1) := by
  have hmap : ∀ f : Value → Value, (vals.map f)[i]? = some (f v) := by
    intro f
    rw [List.getElem?_map, hv]
    rfl
  refine ⟨?_, ?_, ?_, ?_⟩
  · unfold minMaxScaleColumn minMaxCell
    rw [if_neg hne, if_neg hne]
    by_cases hr : colMax vals - colMin vals = 0
    · rw [if_pos hr, if_pos hr, hmap]
    · rw [if_neg hr, if_neg hr, hmap]
  · intro hnum
    unfold minMaxCell
    rw [if_neg hne]
    by_cases hr : colMax vals - colMin vals = 0
    · rw [if_pos hr, if_neg (by simp [hnum])]
    · rw [if_neg hr]
      cases v with
      | num q => simp [Value.isNum] at hnum
      | str s => rfl
      | null => rfl
  · intro hr hnum
    unfold minMaxCell
    rw [if_neg hne, if_pos hr, if_pos hnum]
  · intro hr hnum
    cases v with
    | str s => simp [Value.isNum] at hnum
    | null => simp [Value.isNum] at hnum
    | num x =>
      have hmem : x ∈ numsOf vals := num_mem_numsOf hv
      have h1 : colMin vals ≤ x := colMin_le_of_mem hmem
      have h2 : x ≤ colMax vals := le_colMax_of_mem hmem
      have hpos : 0 < colMax vals - colMin vals :=
        lt_of_le_of_ne (by linarith) (Ne.symm hr)
      refine ⟨?_, ?_, ?_⟩
      · unfold minMaxCell
        rw [if_neg hne, if_neg hr]
        rfl
      · exact div_nonneg (by simp [numOf]; linarith) (le_of_lt hpos)
      · refine (div_le_one hpos).mpr ?_
        simp only [numOf]
        linarith

/-- Witness for C8 at the column `[0, 2, "a"]`, row 1 (the numeric cell 2),
whose range is 2. -/
theorem minMax_scaler_cells_witness :
    (minMaxScaleColumn [Value.num 0, Value.num 2, Value.str "a"])[1]?
        = some (minMaxCell [Value.num 0, Value.num 2, Value.str "a"] (Value.num 2)) ∧
    ((Value.num 2).isNum = false →
      minMaxCell [Value.num 0, Value.num 2, Value.str "a"] (Value.num 2) = Value.num 2) ∧
    (colMax [Value.num 0, Value.num 2, Value.str "a"]
        - colMin [Value.num 0, Value.num 2, Value.str "a"] = 0 →
      (Value.num 2).isNum = true →
      minMaxCell [Value.num 0, Value.num 2, Value.str "a"] (Value.num 2) = Value.num 0) ∧
    (colMax [Value.num 0, Value.num 2, Value.str "a"]
        - colMin [Value.num 0, Value.num 2, Value.str "a"] ≠ 0 →
      (Value.num 2).isNum = true →
      minMaxCell [Value.num 0, Value.num 2, Value.str "a"] (Value.num 2)
          = Value.num ((numOf (Value.num 2) - colMin [Value.num 0, Value.num 2, Value.str "a"])
            / (colMax [Value.num 0, Value.num 2, Value.str "a"]
              - colMin [Value.num 0, Value.num 2, Value.str "a"])) ∧
      0 ≤ (numOf (Value.num 2) - colMin [Value.num 0, Value.num 2, Value.str "a"])
            / (colMax [Value.num 0, Value.num 2, Value.str "a"]
              - colMin [Value.num 0, Value.num 2, Value.str "a"]) ∧
      (numOf (Value.num 2) - colMin [Value.num 0, Value.num 2, Value.str "a"])
            / (colMax [Value.num 0, Value.num 2, Value.str "a"]
              - colMin [Value.num 0, Value.num 2, Value.str "a"]) ≤ 1) :=
  minMax_scaler_cells [Value.num 0, Value.num 2, Value.str "a"] 1 (Value.num 2)
    (by decide) (by decide)

/-- C9: for a requested name that is not a column of the dataset,
`label_encode` silently skips the name (`continue`) and returns with the
dataset unchanged, whereas the engine's column-accepting operations (here
`mean`) raise a lookup error for the same absent name. -/
theorem label_encode_skips_missing (ds : Dataset) (column : String)
    (h : lookupCol ds column = none) :
    label_encode_column ds column = Except.ok ds ∧
      mean ds column = Except.error PyErr.keyError := by
  constructor
  · unfold label_encode_column
    rw [h]
  · unfold mean
    rw [h]

/-- Witness for C9: name `b` is absent from the dataset `{"a": [1]}`. -/
theorem label_encode_skips_missing_witness :
    label_encode_column [("a", [Value.num 1])] "b" = Except.ok [("a", [Value.num 1])] ∧
      mean [("a", [Value.num 1])] "b" = Except.error PyErr.keyError :=
  label_encode_skips_missing [("a", [Value.num 1])] "b" (by decide)

/-! ## Association-list lemmas for the one-hot encoder -/

lemma lookup_dictSet_self (ds : Dataset) (k : String) (v : List Value) :
    lookupCol (dictSet ds k v) k = some v := by
  induction ds with
  | nil => simp [dictSet, lookupCol]
  | cons e es ih =>
    by_cases h : e.1 = k
    · simp [dictSet, h, lookupCol]
    · simp [dictSet, h, lookupCol, ih]

lemma lookup_dictSet_other (ds : Dataset) (k k' : String) (v : List Value) (h : k' ≠ k) :
    lookupCol (dictSet ds k' v) k = lookupCol ds k := by
  induction ds with
  | nil => simp [dictSet, lookupCol, h]
  | cons e es ih =>
    by_cases he : e.1 = k'
    · have hek : ¬ e.1 = k := by rw [he]; exact h
      simp [dictSet, he, lookupCol, h, hek]
    · by_cases hek : e.1 = k
      · have hkk : ¬ k = k' := fun hh => h hh.symm
        simp [dictSet, he, lookupCol, hek, hkk]
      · simp [dictSet, he, lookupCol, hek, ih]

lemma lookup_eq_none_of_not_mem (ds : Dataset) (k : String) (h : k ∉ ds.map Prod.fst) :
    lookupCol ds k = none := by
  induction ds with
  | nil => rfl
  | cons e es ih =>
    simp only [List.map_cons, List.mem_cons] at h
    push_neg at h
    have he : ¬ e.1 = k := fun hek => h.1 hek.symm
    simp [lookupCol, he, ih h.2]

lemma lookup_dictDel_self (ds : Dataset) (k : String) (hnd : (ds.map Prod.fst).Nodup) :
    lookupCol (dictDel ds k) k = none := by
  induction ds with
  | nil => rfl
  | cons e es ih =>
    simp only [List.map_cons, List.nodup_cons] at hnd
    by_cases h : e.1 = k
    · rw [dictDel]
      simp only [h, if_true]
      exact lookup_eq_none_of_not_mem es k (h ▸ hnd.1)
    · rw [dictDel]
      simp only [h, if_false]
      simp [lookupCol, h, ih hnd.2]

lemma lookup_dictDel_other (ds : Dataset) (k k' : String) (h : k ≠ k') :
    lookupCol (dictDel ds k') k = lookupCol ds k := by
  induction ds with
  | nil => rfl
  | cons e es ih =>
    by_cases he : e.1 = k'
    · have hek : ¬ e.1 = k := by rw [he]; exact fun hk => h hk.symm
      have hk'k : ¬ k' = k := fun hh => h hh.symm
      simp [dictDel, he, lookupCol, hek, hk'k]
    · by_cases hek : e.1 = k
      · simp [dictDel, he, lookupCol, hek, h]
      · simp [dictDel, he, lookupCol, hek, ih]

lemma keys_dictSet (ds : Dataset) (k : String) (v : List Value) (m : String) :
    m ∈ (dictSet ds k v).map Prod.fst ↔ m ∈ ds.map Prod.fst ∨ m = k := by
  induction ds with
  | nil => simp [dictSet]
  | cons e es ih =>
    by_cases h : e.1 = k
    · subst h
      simp [dictSet]
      tauto
    · simp only [dictSet, if_neg h, List.map_cons, List.mem_cons, ih]
      tauto

lemma nodup_keys_dictSet (ds : Dataset) (k : String) (v : List Value)
    (hnd : (ds.map Prod.fst).Nodup) : ((dictSet ds k v).map Prod.fst).Nodup := by
  induction ds with
  | nil => simp [dictSet]
  | cons e es ih =>
    simp only [List.map_cons, List.nodup_cons] at hnd
    by_cases h : e.1 = k
    · subst h
      simpa [dictSet, List.nodup_cons] using hnd
    · simp only [dictSet, if_neg h, List.map_cons, List.nodup_cons]
      refine ⟨?_, ih hnd.2⟩
      intro hmem
      rcases (keys_dictSet es k v e.1).mp hmem with hm | hm
      · exact hnd.1 hm
      · exact h hm

lemma nodup_keys_foldl_dictSet (l : List Value) (f : Value → String) (g : Value → List Value)
    (ds : Dataset) (hnd : (ds.map Prod.fst).Nodup) :
    (((l.foldl (fun acc c => dictSet acc (f c) (g c)) ds)).map Prod.fst).Nodup := by
  induction l generalizing ds with
  | nil => exact hnd
  | cons c cs ih => exact ih _ (nodup_keys_dictSet ds (f c) (g c) hnd)

lemma lookup_foldl_dictSet_not_mem (l : List Value) (f : Value → String) (g : Value → List Value)
    (ds : Dataset) (k : String) (hk : k ∉ l.map f) :
    lookupCol (l.foldl (fun acc c => dictSet acc (f c) (g c)) ds) k = lookupCol ds k := by
  induction l generalizing ds with
  | nil => rfl
  | cons c cs ih =>
    simp only [List.map_cons, List.mem_cons] at hk
    push_neg at hk
    simp only [List.foldl_cons]
    rw [ih _ hk.2, lookup_dictSet_other ds k (f c) (g c) (Ne.symm hk.1)]

lemma lookup_foldl_dictSet_mem (l : List Value) (f : Value → String) (g : Value → List Value)
    (ds : Dataset) (c : Value) (hc : c ∈ l) (hnd : (l.map f).Nodup) :
    lookupCol (l.foldl (fun acc x => dictSet acc (f x) (g x)) ds) (f c) = some (g c) := by
  induction l generalizing ds with
  | nil => cases hc
  | cons d t ih =>
    simp only [List.map_cons, List.nodup_cons] at hnd
    simp only [List.foldl_cons]
    rcases List.mem_cons.mp hc with rfl | hct
    · rw [lookup_foldl_dictSet_not_mem t f g _ (f c) hnd.1, lookup_dictSet_self]
    · exact ih _ hct hnd.2

lemma insertSorted_perm (v : Value) (l : List Value) : (insertSorted v l).Perm (v :: l) := by
  induction l with
  | nil => exact List.Perm.refl _
  | cons w ws ih =>
    rw [insertSorted]
    by_cases h : valLe v w
    · rw [if_pos h]
    · rw [if_neg h]
      exact (ih.cons w).trans (List.Perm.swap v w ws)

lemma sortVals_perm (l : List Value) : (sortVals l).Perm l := by
  induction l with
  | nil => exact List.Perm.refl _
  | cons v t ih =>
    have h : sortVals (v :: t) = insertSorted v (sortVals t) := rfl
    rw [h]
    exact (insertSorted_perm v (sortVals t)).trans (ih.cons v)

lemma sortValuesE_allStr {vs : List Value} (h : vs.all Value.isStr = true) :
    ∃ l, sortValuesE vs = Except.ok l ∧ l.Perm vs := by
  unfold sortValuesE
  by_cases hlen : vs.length ≤ 1
  · exact ⟨vs, by rw [if_pos hlen], List.Perm.refl vs⟩
  · refine ⟨sortVals vs, ?_, sortVals_perm vs⟩
    rw [if_neg hlen, if_pos (by simp [h])]

lemma append_left_cancel_str {a b c : String} (h : a ++ b = a ++ c) : b = c := by
  have hd : (a ++ b).data = (a ++ c).data := by rw [h]
  rw [String.data_append, String.data_append] at hd
  exact String.ext (List.append_cancel_left hd)

lemma oneHotName_inj_str (column : String) {s t : String}
    (h : oneHotName column (Value.str s) = oneHotName column (Value.str t)) : s = t := by
  have h2 : (column ++ "_") ++ s = (column ++ "_") ++ t := h
  exact append_left_cancel_str h2

lemma oneHotName_ne_column (column : String) (c : Value) : oneHotName column c ≠ column := by
  intro h
  have hlen : (oneHotName column c).length = column.length := by rw [h]
  unfold oneHotName at hlen
  rw [String.length_append, String.length_append] at hlen
  have h1 : ("_" : String).length = 1 := rfl
  rw [h1] at hlen
  omega

/-- C10: after `oneHot_encode` on a string-categorical column, the encoding
succeeds, the original column is removed, and for a row whose original cell
was null every generated indicator column `<original>_<value>` holds 0 at
that row, so the per-row sum of the generated indicators at that row is 0. -/
theorem oneHot_encode_null_rows (ds : Dataset) (column : String) (vals : List Value)
    (i : ℕ) (c : Value)
    (hnd : (ds.map Prod.fst).Nodup)
    (hv : lookupCol ds column = some vals)
    (hstr : vals.all (fun v => (v == Value.null) || v.isStr) = true)
    (hnull : vals[i]? = some Value.null)
    (hc : c ∈ (vals.filter (fun v => v != Value.null)).dedup) :
    eOk (oneHot_encode_column ds column) = true ∧
    resultLookup (oneHot_encode_column ds column) column = none ∧
    resultLookup (oneHot_encode_column ds column) (oneHotName column c)
        = some (indicatorColumn vals c) ∧
    (indicatorColumn vals c)[i]? = some (Value.num 0) ∧
    resultRowSum (oneHot_encode_column ds column)
        (((vals.filter (fun v => v != Value.null)).dedup).map (oneHotName column)) i = 0 := by
  have hDstr : ((vals.filter (fun v => v != Value.null)).dedup).all Value.isStr = true := by
    rw [List.all_eq_true]
    intro v hvD
    have hvF := List.mem_dedup.mp hvD
    have hvmem := List.mem_filter.mp hvF
    have hvp := List.all_eq_true.mp hstr v hvmem.1
    cases v with
    | null => simp at hvmem
    | str s => rfl
    | num q => simp [Value.isStr] at hvp
  obtain ⟨cats, hsort, hperm⟩ := sortValuesE_allStr hDstr
  have h0 : oneHot_encode_column ds column
      = (match sortValuesE ((vals.filter (fun v => v != Value.null)).dedup) with
        | Except.error e => Except.error e
        | Except.ok cats => Except.ok (dictDel (cats.foldl
            (fun acc x => dictSet acc (oneHotName column x) (indicatorColumn vals x)) ds)
          column)) := by
    unfold oneHot_encode_column
    rw [hv]
  have heq : oneHot_encode_column ds column
      = Except.ok (dictDel (cats.foldl
          (fun acc x => dictSet acc (oneHotName column x) (indicatorColumn vals x)) ds)
        column) := by
    rw [h0, hsort]
  have hcatsStr : ∀ x ∈ cats, x.isStr = true := by
    intro x hx
    exact List.all_eq_true.mp hDstr x (hperm.mem_iff.mp hx)
  have hcatsNodup : cats.Nodup := hperm.nodup_iff.mpr (List.nodup_dedup _)
  have hnames : (cats.map (oneHotName column)).Nodup := by
    refine List.Nodup.map_on ?_ hcatsNodup
    intro x hx y hy hxy
    have hxs := hcatsStr x hx
    have hys := hcatsStr y hy
    cases x with
    | num q => simp [Value.isStr] at hxs
    | null => simp [Value.isStr] at hxs
    | str s =>
      cases y with
      | num q => simp [Value.isStr] at hys
      | null => simp [Value.isStr] at hys
      | str t => exact congrArg Value.str (oneHotName_inj_str column hxy)
  have hbignd := nodup_keys_foldl_dictSet cats (oneHotName column) (indicatorColumn vals) ds hnd
  have hkey : ∀ c' ∈ (vals.filter (fun v => v != Value.null)).dedup,
      lookupCol (dictDel (cats.foldl
          (fun acc x => dictSet acc (oneHotName column x) (indicatorColumn vals x)) ds) column)
        (oneHotName column c') = some (indicatorColumn vals c') ∧
      (indicatorColumn vals c')[i]? = some (Value.num 0) := by
    intro c' hc'
    have hccats : c' ∈ cats := hperm.mem_iff.mpr hc'
    constructor
    · rw [lookup_dictDel_other _ _ _ (oneHotName_ne_column column c'),
        lookup_foldl_dictSet_mem cats (oneHotName column) (indicatorColumn vals) ds c'
          hccats hnames]
    · have hm := List.mem_filter.mp (List.mem_dedup.mp hc')
      have hne : ¬ Value.null = c' := fun hh => (bne_iff_ne.mp hm.2) hh.symm
      unfold indicatorColumn
      rw [List.getElem?_map, hnull]
      simp [hne]
  refine ⟨?_, ?_, ?_, (hkey c hc).2, ?_⟩
  · rw [heq]
    rfl
  · rw [heq]
    exact lookup_dictDel_self _ column hbignd
  · rw [heq]
    exact (hkey c hc).1
  · rw [heq]
    show rowSum _ _ i = 0
    unfold rowSum
    refine List.sum_eq_zero ?_
    intro x hx
    rw [List.map_map] at hx
    obtain ⟨c', hc', rfl⟩ := List.mem_map.mp hx
    show cellNum _ (oneHotName column c') i = 0
    unfold cellNum
    rw [(hkey c' hc').1]
    show (match (indicatorColumn vals c')[i]? with
      | some v => numOf v
      | none => (0 : ℚ)) = (0 : ℚ)
    rw [(hkey c' hc').2]
    rfl

/-- Witness for C10: the dataset `{"c": ["x", None]}`, whose row 1 is null,
encoded on column `c` with category `x`. -/
theorem oneHot_encode_null_rows_witness :
    eOk (oneHot_encode_column [("c", [Value.str "x", Value.null])] "c") = true ∧
    resultLookup (oneHot_encode_column [("c", [Value.str "x", Value.null])] "c") "c" = none ∧
    resultLookup (oneHot_encode_column [("c", [Value.str "x", Value.null])] "c")
        (oneHotName "c" (Value.str "x"))
        = some (indicatorColumn [Value.str "x", Value.null] (Value.str "x")) ∧
    (indicatorColumn [Value.str "x", Value.null] (Value.str "x"))[1]? = some (Value.num 0) ∧
    resultRowSum (oneHot_encode_column [("c", [Value.str "x", Value.null])] "c")
        ((([Value.str "x", Value.null].filter (fun v => v != Value.null)).dedup).map
          (oneHotName "c")) 1 = 0 :=
  oneHot_encode_null_rows [("c", [Value.str "x", Value.null])] "c"
    [Value.str "x", Value.null] 1 (Value.str "x")
    (by decide) (by decide) (by decide) (by decide) (by decide)
